import Mathlib

set_option autoImplicit false
set_option maxHeartbeats 1000000

/-!
Verification of `src/schedule_generator.py` (work schedule generator).

This file gives a shallow embedding of the program's data model and its
operations, and proves or refutes the frozen claims about them.

Modelling conventions:
* Python dicts are modelled as association lists in insertion order, with
  first-match lookup and overwrite-in-place insertion, matching CPython's
  ordered-dict semantics (dicts arising in the program never hold duplicate
  keys).
* Python list indexing takes an `Int` index: a negative index `i` addresses
  element `len + i`, and an index outside `-len .. len-1` raises `IndexError`.
* Fallible code is modelled in `Except PyErr`; a `PyErr` value stands for an
  uncaught Python exception propagating out of the method.
* Machine-level concerns (object identity / aliasing of the shift lists) are
  modelled by value equality: every observable field coincides.
-/

/-- Python runtime errors that the embedded operations can raise. -/
inductive PyErr where
  | typeError
  | indexError
  | attributeError
  | overflowError
  deriving DecidableEq

/-- The `Employee` dataclass: `name`, `id`, optional `department`,
`max_hours_per_week` (default 40) and `available_days`. The `__post_init__`
weekday default (Monday..Friday) is modelled as the field default, which is
what construction with `available_days=None` produces. -/
structure Employee where
  name : String
  id : String
  department : Option String := none
  max_hours_per_week : Int := 40
  available_days : List String := ["Monday", "Tuesday", "Wednesday", "Thursday", "Friday"]
  deriving DecidableEq

/-- The `Shift` dataclass: start/end times, position and the optional
`employee_id` reference into the roster (initially `None`). -/
structure Shift where
  start_time : String
  end_time : String
  position : String
  employee_id : Option String := none
  deriving DecidableEq

/-- One value of the schedule dict: `{"day": <weekday name>, "shifts": [...]}`. -/
structure DayEntry where
  day : String
  shifts : List Shift
  deriving DecidableEq

/-- `self.schedule`: dict from date string to day entry, in insertion order. -/
abbrev Schedule := List (String × DayEntry)

/-- The mutable state of a `ScheduleGenerator` object: the employee list and
the schedule mapping. -/
structure State where
  employees : List Employee
  schedule : Schedule
  deriving DecidableEq

/-- `add_employee`: appends to the employee list (no duplicate-id check). -/
def add_employee (es : List Employee) (e : Employee) : List Employee :=
  es ++ [e]

/-- `remove_employee`: keeps exactly the employees whose id differs
(`[emp for emp in self.employees if emp.id != employee_id]`). -/
def remove_employee (es : List Employee) (employee_id : String) : List Employee :=
  es.filter (fun emp => emp.id != employee_id)

/-- `get_employee`: linear scan returning the first employee with the given
id, `None` if absent. -/
def get_employee (es : List Employee) (employee_id : String) : Option Employee :=
  es.find? (fun emp => emp.id == employee_id)

/-- Python list indexing: resolve an `Int` index on a list of length `len` to
the actual element position. Negative indices count from the end; a `none`
result is an `IndexError`. -/
def pyIndex (len : Nat) (i : Int) : Option Nat :=
  let j := if i < 0 then i + (len : Int) else i
  if 0 ≤ j ∧ j < (len : Int) then some j.toNat else none

/-- In-place update `shifts[j].employee_id = employee_id` of the `j`-th shift
(the index is already resolved to a position). -/
def setEmp : List Shift → Nat → String → List Shift
  | [], _, _ => []
  | sh :: rest, 0, eid => { sh with employee_id := some eid } :: rest
  | sh :: rest, j + 1, eid => sh :: setEmp rest j eid

/-- In-place update of the entry stored under a dict key (first match). -/
def updateDay : Schedule → String → (DayEntry → DayEntry) → Schedule
  | [], _, _ => []
  | (k, e) :: rest, date, f =>
      if k = date then (k, f e) :: rest else (k, e) :: updateDay rest date f

/-- `assign_employee_to_shift(date, shift_index, employee_id)`: checks
`date in self.schedule and shift_index < len(self.schedule[date]["shifts"])`,
then resolves the employee and checks the day's weekday against the
employee's `available_days`; on success it sets
`self.schedule[date]["shifts"][shift_index].employee_id` and returns `True`,
otherwise it returns `False`. Note the source has no lower bound check on
`shift_index`: a negative index is resolved by Python's indexing rule and can
raise `IndexError`. -/
def assign_employee_to_shift (s : State) (date : String) (shift_index : Int)
    (employee_id : String) : Except PyErr (State × Bool) :=
  match List.lookup date s.schedule with
  | some ent =>
    if shift_index < (ent.shifts.length : Int) then
      match get_employee s.employees employee_id with
      | some employee =>
        if ent.day ∈ employee.available_days then
          match pyIndex ent.shifts.length shift_index with
          | some j =>
              .ok ({ s with
                      schedule := updateDay s.schedule date
                        (fun e => { e with shifts := setEmp e.shifts j employee_id }) },
                    true)
          | none => .error .indexError
        else .ok (s, false)
      | none => .ok (s, false)
    else .ok (s, false)
  | none => .ok (s, false)

/-! ## Calendar model

`create_weekly_schedule` parses its start date with
`datetime.strptime(start_date, "%Y-%m-%d")`, adds `timedelta(days=i)` and
formats back with `strftime("%Y-%m-%d")`. We model a parsed date as a
`(year, month, day)` triple with proleptic-Gregorian day succession. A
well-formed `YYYY-MM-DD` start string corresponds to a `Date.valid` value
(four-digit year, month and day in range). `datetime` supports years up to
9999 only: adding a `timedelta` that leaves that range raises
`OverflowError`, which the embedding reproduces. -/

/-- A parsed calendar date, as produced by `datetime.strptime(_, "%Y-%m-%d")`. -/
structure Date where
  year : Nat
  month : Nat
  day : Nat
  deriving DecidableEq

/-- Gregorian leap-year rule. -/
def isLeap (y : Nat) : Bool :=
  (y % 4 == 0 && y % 100 != 0) || y % 400 == 0

/-- Number of days in a month of a given year. -/
def daysInMonth (y m : Nat) : Nat :=
  if m = 2 then (if isLeap y then 29 else 28)
  else if m = 4 ∨ m = 6 ∨ m = 9 ∨ m = 11 then 30
  else 31

/-- A date is valid when it denotes a real calendar day with a four-digit
year (the well-formed `YYYY-MM-DD` range). -/
def Date.valid (d : Date) : Prop :=
  1000 ≤ d.year ∧ 1 ≤ d.month ∧ d.month ≤ 12 ∧ 1 ≤ d.day ∧ d.day ≤ daysInMonth d.year d.month

instance (d : Date) : Decidable d.valid := by
  unfold Date.valid; infer_instance

/-- The calendar day after `d` (Gregorian rollover). -/
def nextDay (d : Date) : Date :=
  if d.day < daysInMonth d.year d.month then ⟨d.year, d.month, d.day + 1⟩
  else if d.month < 12 then ⟨d.year, d.month + 1, 1⟩
  else ⟨d.year + 1, 1, 1⟩

/-- `d + timedelta(days=n)` (without the `datetime` range check, which is
applied at the call site). -/
def addDays (d : Date) : Nat → Date
  | 0 => d
  | n + 1 => nextDay (addDays d n)

/-- Two decimal digits with leading zero, as `strftime` produces for
`%m`/`%d` (and which we also use pairwise for the four-digit `%Y`). -/
def pad2 (n : Nat) : List Char :=
  [Char.ofNat (48 + n / 10), Char.ofNat (48 + n % 10)]

/-- `strftime("%Y-%m-%d")` of a date: zero-padded four-digit year, two-digit
month and day. -/
def fmtDate (d : Date) : String :=
  ⟨pad2 (d.year / 100) ++ pad2 (d.year % 100) ++ '-' :: (pad2 d.month ++ '-' :: pad2 d.day)⟩

/-! ## `create_weekly_schedule` -/

/-- `dict.get(k, default)` with first-match lookup. -/
def dictGetD {α : Type} (m : List (String × α)) (k : String) (dflt : α) : α :=
  match List.lookup k m with
  | some v => v
  | none => dflt

/-- `d[k] = v` on a Python dict: overwrite in place if the key is present,
append otherwise. -/
def dictInsert {α : Type} : List (String × α) → String → α → List (String × α)
  | [], k, v => [(k, v)]
  | (k', v') :: rest, k, v =>
      if k' = k then (k, v) :: rest else (k', v') :: dictInsert rest k v

/-- The fixed weekday-label list of the source
(`days = ["Monday", ..., "Sunday"]`), paired with the loop offset from
`enumerate`. -/
def weekDaysEnum : List (Nat × String) :=
  [(0, "Monday"), (1, "Tuesday"), (2, "Wednesday"), (3, "Thursday"),
   (4, "Friday"), (5, "Saturday"), (6, "Sunday")]

/-- The weekday labels, in loop order. -/
def weekDayNames : List String := weekDaysEnum.map Prod.snd

/-- The body of the `for i, day in enumerate(days)` loop, building the fresh
schedule dict. `start + timedelta(days=i)` raises `OverflowError` once the
date leaves the `datetime` range (year > 9999). -/
def buildWeekGo (start : Date) (tmpl : List (String × List Shift)) :
    List (Nat × String) → Schedule → Except PyErr Schedule
  | [], acc => .ok acc
  | (i, day) :: rest, acc =>
      if (addDays start i).year ≤ 9999 then
        buildWeekGo start tmpl rest
          (dictInsert acc (fmtDate (addDays start i)) ⟨day, dictGetD tmpl day []⟩)
      else .error .overflowError

/-- The schedule dict built by the loop, starting from the empty dict. -/
def buildWeek (start : Date) (tmpl : List (String × List Shift)) : Except PyErr Schedule :=
  buildWeekGo start tmpl weekDaysEnum []

/-- `create_weekly_schedule(start_date, shifts_per_day)`: builds the 7-day
schedule (each day labelled by offset, shifts taken from
`shifts_per_day.get(day, [])`), replaces `self.schedule` with it, and returns
it. The start date is given already parsed; `strptime` rejects strings that
are not well-formed dates, so callers quantify over `Date.valid` values. -/
def create_weekly_schedule (s : State) (start : Date)
    (shifts_per_day : List (String × List Shift)) : Except PyErr (State × Schedule) :=
  match buildWeek start shifts_per_day with
  | .ok sched => .ok ({ s with schedule := sched }, sched)
  | .error e => .error e

/-- The claim-side description of the produced week: one entry per weekday
label, keyed by the formatted `i`-th consecutive date, holding the template's
shift list for that label (or the empty list). -/
def weekList (start : Date) (tmpl : List (String × List Shift)) : Schedule :=
  weekDaysEnum.map (fun p => (fmtDate (addDays start p.1), ⟨p.2, dictGetD tmpl p.2 []⟩))

/-! ## Rendering / export

File writing is I/O; the embedding models the data each export produces: the
CSV writer's rows, the HTML table's rows, and the console lines of
`print_schedule`. All three iterate the schedule dict in insertion order and
the shifts of each day in list order, and resolve the employee cell through
`get_employee`. -/

/-- Truthiness of `shift.employee_id` in `if shift.employee_id:`: `None` and
the empty string are falsy. -/
def optStrTruthy : Option String → Bool
  | none => false
  | some s => !s.isEmpty

/-- The employee cell of `export_to_csv`: it starts from `""` and only a
truthy `employee_id` is resolved (employee name, or the bare id when the
employee is gone from the roster). -/
def csvEmployeeName (es : List Employee) : Option String → String
  | none => ""
  | some eid =>
      if eid.isEmpty then ""
      else
        match get_employee es eid with
        | some emp => emp.name
        | none => eid

/-- The employee cell of `export_to_html` and `print_schedule`: it starts
from `"UNASSIGNED"` and only a truthy `employee_id` is resolved. -/
def displayEmployeeName (es : List Employee) : Option String → String
  | none => "UNASSIGNED"
  | some eid =>
      if eid.isEmpty then "UNASSIGNED"
      else
        match get_employee es eid with
        | some emp => emp.name
        | none => eid

/-- `export_to_csv`: the rows handed to `csv.writer`, a header row followed
by one row per shift, appended in loop order. -/
def export_to_csv (s : State) : List (List String) :=
  s.schedule.foldl
    (fun acc p =>
      p.2.shifts.foldl
        (fun acc2 sh =>
          acc2 ++ [[p.1, p.2.day, sh.start_time, sh.end_time, sh.position,
                    csvEmployeeName s.employees sh.employee_id]])
        acc)
    [["Date", "Day", "Start Time", "End Time", "Position", "Employee"]]

/-- One `<tr>` of the HTML export: its CSS class and the five visible
cells. -/
structure HtmlRow where
  cssClass : String
  date : String
  day : String
  time : String
  position : String
  employee : String
  deriving DecidableEq

/-- `export_to_html`: the table rows appended to `html_content`, one per
shift; an untruthy `employee_id` leaves the `"unassigned"` class and the
`"UNASSIGNED"` cell. -/
def export_to_html_rows (s : State) : List HtmlRow :=
  s.schedule.foldl
    (fun acc p =>
      p.2.shifts.foldl
        (fun acc2 sh =>
          acc2 ++ [⟨if optStrTruthy sh.employee_id then "" else "unassigned",
                    p.1, p.2.day, sh.start_time ++ " - " ++ sh.end_time, sh.position,
                    displayEmployeeName s.employees sh.employee_id⟩])
        acc)
    []

/-- One shift line of `print_schedule`. -/
def shiftLine (es : List Employee) (sh : Shift) : String :=
  "  " ++ sh.start_time ++ "-" ++ sh.end_time ++ " | " ++ sh.position ++ " | "
    ++ displayEmployeeName es sh.employee_id

/-- `print_schedule`: the strings printed to the console, in order; an empty
day prints the `"  No shifts scheduled"` placeholder. -/
def print_schedule_out (s : State) : List String :=
  s.schedule.foldl
    (fun acc p =>
      (acc ++ [p.1 ++ " (" ++ p.2.day ++ ")", String.mk (List.replicate 50 '-')])
        ++ (if p.2.shifts.isEmpty then ["  No shifts scheduled"]
            else p.2.shifts.foldl (fun acc2 sh => acc2 ++ [shiftLine s.employees sh]) [])
        ++ [""])
    ["\n=== WORK SCHEDULE ===\n"]

/-! ## Persistence

`save_data` builds `{"employees": [asdict(emp) ...], "schedule": self.schedule}`
and hands it to `json.dump`; `load_data` reads a file, parses it with
`json.load` and replaces the in-memory structures. JSON documents are
modelled by `Json` (numbers as integers: the documents the program reads and
writes carry only integers). The file/parser boundary of `load_data` is an
input of type `Option (Except Unit Json)`: `none` is a missing file
(`FileNotFoundError`), `some (.error ())` a present file whose text does not
parse (`json.JSONDecodeError`), and `some (.ok j)` a file parsing to `j`. -/

/-- Parsed JSON documents. -/
inductive Json where
  | null
  | jbool (b : Bool)
  | jnum (n : Int)
  | jstr (s : String)
  | jarr (xs : List Json)
  | jobj (kvs : List (String × Json))

/-- `dataclasses.asdict` of an `Employee`: all five fields, in declaration
order. -/
def asdictEmployee (e : Employee) : Json :=
  .jobj [("name", .jstr e.name), ("id", .jstr e.id),
         ("department", match e.department with | some dpt => .jstr dpt | none => .null),
         ("max_hours_per_week", .jnum e.max_hours_per_week),
         ("available_days", .jarr (e.available_days.map .jstr))]

/-- `json.dump` reaching a `Shift` value: dataclass instances are not JSON
serializable, so serialization raises
`TypeError: Object of type Shift is not JSON serializable`. The schedule dict
stores `Shift` objects directly (only `asdict` is applied to employees), so
this is hit by every shift in the schedule. -/
def dumpShift (_ : Shift) : Except PyErr Json :=
  .error .typeError

/-- `json.dump` of one schedule value `{"day": ..., "shifts": [...]}`. -/
def dumpEntry (ent : DayEntry) : Except PyErr Json := do
  let shifts ← ent.shifts.mapM dumpShift
  pure (.jobj [("day", .jstr ent.day), ("shifts", .jarr shifts)])

/-- `save_data`: serialize `{"employees": ..., "schedule": ...}` to JSON.
The file write itself is I/O; the document (or the serialization error) is
the observable result. -/
def save_data (s : State) : Except PyErr Json := do
  let sched ← s.schedule.mapM (fun p => do pure (p.1, ← dumpEntry p.2))
  pure (.jobj [("employees", .jarr (s.employees.map asdictEmployee)),
               ("schedule", .jobj sched)])

/-- The result of a `load_data` call: the boolean returns of the source
(`ok` for `True`, `fileNotFound`/`invalidJson` for the two `False`-returning
handlers, which print distinct messages) plus `raised` for an exception
propagating out of the body. -/
inductive LoadResult where
  | ok
  | fileNotFound
  | invalidJson
  | raised (e : PyErr)
  deriving DecidableEq

/-- `kvs.get(k, default)` on a parsed JSON object. -/
def jsonGetD (kvs : List (String × Json)) (k : String) (dflt : Json) : Json :=
  match List.lookup k kvs with
  | some v => v
  | none => dflt

/-- The `department` keyword of `Employee(**emp_data)`: absent or `null`
gives the `None` default. -/
def depFromJson : Option Json → Except PyErr (Option String)
  | none => .ok none
  | some .null => .ok none
  | some (.jstr s) => .ok (some s)
  | some _ => .error .typeError

/-- The `max_hours_per_week` keyword: absent gives the default 40. -/
def hoursFromJson : Option Json → Except PyErr Int
  | none => .ok 40
  | some (.jnum n) => .ok n
  | some _ => .error .typeError

/-- A JSON string. -/
def strFromJson : Json → Except PyErr String
  | .jstr s => .ok s
  | _ => .error .typeError

/-- The `available_days` keyword: absent or `null` triggers the
`__post_init__` Monday..Friday default. -/
def availFromJson : Option Json → Except PyErr (List String)
  | none => .ok ["Monday", "Tuesday", "Wednesday", "Thursday", "Friday"]
  | some .null => .ok ["Monday", "Tuesday", "Wednesday", "Thursday", "Friday"]
  | some (.jarr xs) => xs.mapM strFromJson
  | some _ => .error .typeError

/-- The dataclass field names of `Employee`. -/
def employeeFields : List String :=
  ["name", "id", "department", "max_hours_per_week", "available_days"]

/-- `Employee(**emp_data)`: unpacking anything but a mapping, or passing an
unexpected or missing keyword, raises `TypeError`. Python performs no runtime
check on the field values themselves; the model restricts to documents whose
values match the dataclass annotations, which covers every document the
program itself writes (the claims exercise no other employee records). -/
def employeeFromJson : Json → Except PyErr Employee
  | .jobj kvs =>
      if kvs.all (fun p => p.1 ∈ employeeFields) then
        match List.lookup "name" kvs, List.lookup "id" kvs with
        | some (.jstr nm), some (.jstr eid) => do
            let dep ← depFromJson (List.lookup "department" kvs)
            let hrs ← hoursFromJson (List.lookup "max_hours_per_week" kvs)
            let avail ← availFromJson (List.lookup "available_days" kvs)
            pure ⟨nm, eid, dep, hrs, avail⟩
        | _, _ => .error .typeError
      else .error .typeError
  | _ => .error .typeError

/-- `[Employee(**emp_data) for emp_data in ...]`: iterating a non-list
document eventually raises. -/
def empsFromJson : Json → Except PyErr (List Employee)
  | .jarr xs => xs.mapM employeeFromJson
  | _ => .error .typeError

/-- One shift record of a persisted schedule. -/
def shiftFromJson : Json → Except PyErr Shift
  | .jobj kvs =>
      if kvs.all (fun p => p.1 ∈ ["start_time", "end_time", "position", "employee_id"]) then
        match List.lookup "start_time" kvs, List.lookup "end_time" kvs,
              List.lookup "position" kvs with
        | some (.jstr st), some (.jstr en), some (.jstr pos) =>
            match List.lookup "employee_id" kvs with
            | none => .ok ⟨st, en, pos, none⟩
            | some .null => .ok ⟨st, en, pos, none⟩
            | some (.jstr eid) => .ok ⟨st, en, pos, some eid⟩
            | some _ => .error .typeError
        | _, _, _ => .error .typeError
      else .error .typeError
  | _ => .error .typeError

/-- One day record of a persisted schedule. -/
def entryFromJson : Json → Except PyErr DayEntry
  | .jobj kvs =>
      match List.lookup "day" kvs, List.lookup "shifts" kvs with
      | some (.jstr day), some (.jarr xs) => do
          let shifts ← xs.mapM shiftFromJson
          pure ⟨day, shifts⟩
      | _, _ => .error .typeError
  | _ => .error .typeError

/-- The persisted schedule mapping. The source stores the parsed data
unvalidated (`self.schedule = data.get("schedule", {})`); the typed model
decodes the same observable fields and signals an error on documents that do
not have the store's shape (the claims exercise only empty or store-shaped
schedules). -/
def scheduleFromJson : Json → Except PyErr Schedule
  | .jobj kvs => kvs.mapM (fun p => do pure (p.1, ← entryFromJson p.2))
  | _ => .error .typeError

/-- `load_data`: on a missing file or unparseable text the handlers print a
message and return `False`, leaving the object untouched; otherwise the
employees list and then the schedule are replaced
(`data.get(..., default)` on a non-dict document raises `AttributeError`). -/
def load_data (file : Option (Except Unit Json)) (s : State) : State × LoadResult :=
  match file with
  | none => (s, .fileNotFound)
  | some (.error _) => (s, .invalidJson)
  | some (.ok data) =>
      match data with
      | .jobj kvs =>
          match empsFromJson (jsonGetD kvs "employees" (.jarr [])) with
          | .error e => (s, .raised e)
          | .ok emps =>
              match scheduleFromJson (jsonGetD kvs "schedule" (.jobj [])) with
              | .error e => ({ s with employees := emps }, .raised e)
              | .ok sched => (⟨emps, sched⟩, .ok)
      | _ => (s, .raised .attributeError)

instance : Inhabited Shift := ⟨⟨"", "", "", none⟩⟩

/-- The position a Python index resolves to when it is in range. -/
def pyNormIdx (len : Nat) (i : Int) : Nat :=
  (if i < 0 then i + (len : Int) else i).toNat

/-- The state produced by a successful assignment: the schedule entry under
`date` gets the shift at position `j` overwritten with the employee id. -/
def assignedState (s : State) (date : String) (j : Nat) (eid : String) : State :=
  { s with
      schedule := updateDay s.schedule date
        (fun e => { e with shifts := setEmp e.shifts j eid }) }

/-! ## Concrete stores used by counterexamples and witnesses -/

/-- An employee available on Mondays only. -/
def empAnn : Employee := { name := "Ann", id := "E1", available_days := ["Monday"] }

/-- An unassigned manager shift. -/
def shiftA : Shift := { start_time := "09:00", end_time := "17:00", position := "Manager" }

/-- A store with one employee and a one-day, one-shift schedule. -/
def sampleState : State := ⟨[empAnn], [("2024-01-01", ⟨"Monday", [shiftA]⟩)]⟩

/-- `sampleState` after assigning Ann to the only shift. -/
def sampleAssigned : State :=
  ⟨[empAnn], [("2024-01-01", ⟨"Monday", [{ shiftA with employee_id := some "E1" }]⟩)]⟩

/-- A concrete start date. -/
def startJan : Date := ⟨2024, 1, 1⟩

/-- A template with a single Monday shift. -/
def sampleTemplate : List (String × List Shift) := [("Monday", [shiftA])]

/-- A template shift that arrives with an assignment already set. -/
def preAssignedShift : Shift :=
  { start_time := "10:00", end_time := "18:00", position := "Sales", employee_id := some "E9" }

/-- A template whose Tuesday shift is pre-assigned. -/
def preAssignedTemplate : List (String × List Shift) := [("Tuesday", [preAssignedShift])]

/-- Lexicographic weight of a date; strictly increasing along the calendar,
used to separate the seven keys of a created week. -/
def toKey (d : Date) : Nat :=
  d.year * 10000 + d.month * 100 + d.day

/-! ## Helper lemmas -/

theorem pyNormIdx_lt {len : Nat} {i : Int}
    (hlo : -(len : Int) ≤ i) (hhi : i < (len : Int)) : pyNormIdx len i < len := by
  unfold pyNormIdx
  split <;> omega

theorem pyIndex_spec (len : Nat) (i : Int) :
    pyIndex len i =
      if -(len : Int) ≤ i ∧ i < (len : Int) then some (pyNormIdx len i) else none := by
  unfold pyIndex pyNormIdx
  by_cases hneg : i < 0 <;> simp only [hneg, if_true, if_false, reduceIte] <;>
    split <;> split <;> first | rfl | omega

theorem lookup_updateDay_self (m : Schedule) (date : String) (f : DayEntry → DayEntry) :
    List.lookup date (updateDay m date f) = (List.lookup date m).map f := by
  induction m with
  | nil => rfl
  | cons p rest ih =>
    obtain ⟨k, e⟩ := p
    by_cases hk : k = date
    · subst hk
      simp [updateDay, List.lookup]
    · have hbne : (date == k) = false := by
        simp [beq_iff_eq]
        exact fun h => hk h.symm
      simp [updateDay, List.lookup, hk, hbne, ih]

theorem lookup_updateDay_ne {m : Schedule} {date k : String}
    (f : DayEntry → DayEntry) (hne : k ≠ date) :
    List.lookup k (updateDay m date f) = List.lookup k m := by
  induction m with
  | nil => rfl
  | cons p rest ih =>
    obtain ⟨k', e⟩ := p
    by_cases hk : k' = date
    · subst hk
      have hbne : (k == k') = false := by
        simp [beq_iff_eq]
        exact hne
      simp [updateDay, List.lookup, hbne]
    · simp [updateDay, List.lookup, hk, ih]

theorem setEmp_eq_set :
    ∀ (l : List Shift) (j : Nat) (eid : String), j < l.length →
      setEmp l j eid = l.set j { l.getD j default with employee_id := some eid }
  | [], j, eid, h => by simp at h
  | sh :: rest, 0, eid, _ => by simp [setEmp]
  | sh :: rest, j + 1, eid, h => by
      have := setEmp_eq_set rest j eid (by simpa using h)
      simp [setEmp, this, List.getD]

/-- Full characterization of a successful assignment: it succeeds exactly
when the date is a key, the index is within Python list bounds, the employee
resolves, and the day's label is among the employee's available days; the
resulting state is the in-place update at the resolved position. -/
theorem assign_ok_iff (s : State) (date : String) (i : Int) (eid : String) (s' : State) :
    assign_employee_to_shift s date i eid = .ok (s', true) ↔
      ∃ ent, List.lookup date s.schedule = some ent ∧
        -(ent.shifts.length : Int) ≤ i ∧ i < (ent.shifts.length : Int) ∧
        (∃ emp, get_employee s.employees eid = some emp ∧ ent.day ∈ emp.available_days) ∧
        s' = assignedState s date (pyNormIdx ent.shifts.length i) eid := by
  rcases hl : List.lookup date s.schedule with _ | ent
  · simp [assign_employee_to_shift, hl]
  · simp only [assign_employee_to_shift, hl, Option.some.injEq]
    by_cases hi : i < (ent.shifts.length : Int)
    · simp only [if_pos hi]
      rcases he : get_employee s.employees eid with _ | emp
      · simp only [he]
        constructor
        · intro h
          exact absurd h (by simp)
        · rintro ⟨ent', rfl, -, -, ⟨emp, hemp, -⟩, -⟩
          simp at hemp
      · simp only [he, Option.some.injEq]
        by_cases hd : ent.day ∈ emp.available_days
        · simp only [if_pos hd, pyIndex_spec]
          by_cases hb : -(ent.shifts.length : Int) ≤ i
          · rw [if_pos ⟨hb, hi⟩]
            constructor
            · intro h
              refine ⟨ent, rfl, hb, hi, ⟨emp, rfl, hd⟩, ?_⟩
              simp only [Except.ok.injEq, Prod.mk.injEq] at h
              exact h.1.symm
            · rintro ⟨ent', rfl, -, -, ⟨emp', rfl, -⟩, rfl⟩
              rfl
          · rw [if_neg (by tauto)]
            constructor
            · intro h
              exact absurd h (by simp)
            · rintro ⟨ent', rfl, hb', -, -, -⟩
              exact absurd hb' hb
        · simp only [if_neg hd]
          constructor
          · intro h
            exact absurd h (by simp)
          · rintro ⟨ent', rfl, -, -, ⟨emp', rfl, hd'⟩, -⟩
            exact absurd hd' hd
    · simp only [if_neg hi]
      constructor
      · intro h
        exact absurd h (by simp)
      · rintro ⟨ent', rfl, -, hi', -, -⟩
        exact absurd hi' hi

/-! ## Claim theorems -/

/-- C1 (corrected): `assign_employee_to_shift` returns success iff the date
is a key of the schedule, the shift index is within Python list-index bounds
of that day's shift list (`-length ≤ i < length`, a negative index counting
from the end — not `0 ≤ i < length` as stated), the employee id resolves in
the roster, and the day's label is among the employee's available days; on
success the shift at the resolved position has `employee_id` overwritten with
the given id, all other days and the roster being untouched. -/
theorem assign_success_iff_python_bounds (s : State) (date : String) (i : Int) (eid : String) :
    (∀ s', assign_employee_to_shift s date i eid = .ok (s', true) ↔
      ∃ ent, List.lookup date s.schedule = some ent ∧
        -(ent.shifts.length : Int) ≤ i ∧ i < (ent.shifts.length : Int) ∧
        (∃ emp, get_employee s.employees eid = some emp ∧ ent.day ∈ emp.available_days) ∧
        s' = assignedState s date (pyNormIdx ent.shifts.length i) eid)
    ∧ (∀ s' ent, assign_employee_to_shift s date i eid = .ok (s', true) →
        List.lookup date s.schedule = some ent →
        s'.employees = s.employees
        ∧ List.lookup date s'.schedule = some
            { ent with
                shifts := ent.shifts.set (pyNormIdx ent.shifts.length i)
                  { ent.shifts.getD (pyNormIdx ent.shifts.length i) default with
                      employee_id := some eid } }
        ∧ (∀ k, k ≠ date → List.lookup k s'.schedule = List.lookup k s.schedule)) := by
  refine ⟨assign_ok_iff s date i eid, ?_⟩
  intro s' ent h hent
  obtain ⟨ent', hent', hb, hi, -, hs⟩ := (assign_ok_iff s date i eid s').mp h
  rw [hent] at hent'
  injection hent' with hent'
  subst hent'
  subst hs
  refine ⟨rfl, ?_, ?_⟩
  · show List.lookup date (updateDay s.schedule date _) = _
    rw [lookup_updateDay_self, hent]
    have hj : pyNormIdx ent.shifts.length i < ent.shifts.length := pyNormIdx_lt hb hi
    simp only [Option.map_some']
    congr 1
    rw [setEmp_eq_set _ _ _ hj]
  · intro k hk
    exact lookup_updateDay_ne _ hk

/-- C1 witness: assigning Ann to shift 0 of the Monday entry succeeds and
produces the overwritten store. -/
theorem assign_success_iff_python_bounds_witness :
    assign_employee_to_shift sampleState "2024-01-01" 0 "E1" = .ok (sampleAssigned, true)
    ∧ sampleAssigned.employees = sampleState.employees :=
  ⟨((assign_success_iff_python_bounds sampleState "2024-01-01" 0 "E1").1 sampleAssigned).mpr
      ⟨⟨"Monday", [shiftA]⟩, rfl, by decide, by decide, ⟨empAnn, rfl, by decide⟩, by decide⟩,
   ((assign_success_iff_python_bounds sampleState "2024-01-01" 0 "E1").2 sampleAssigned
      ⟨"Monday", [shiftA]⟩ rfl rfl).1⟩

/-- C1 counterexample: with the date present, a valid available employee and
a one-shift day, index `-1` succeeds (Python resolves it to the last shift),
although `0 ≤ shiftIndex` fails — refuting the claimed `0 ≤ shiftIndex <
length` success condition. -/
theorem assign_negative_index_succeeds :
    assign_employee_to_shift sampleState "2024-01-01" (-1) "E1" = .ok (sampleAssigned, true)
    ∧ ¬ (0 ≤ (-1 : Int)) :=
  ⟨rfl, by decide⟩

/-- C3 (code bug): with the date present, a valid available employee and a
one-shift day, index `-3` passes the `shift_index < len(...)` guard (there is
no lower-bound check) and the final element access raises `IndexError`
instead of returning `False`. -/
theorem assign_negative_index_crashes :
    assign_employee_to_shift sampleState "2024-01-01" (-3) "E1" = .error .indexError :=
  rfl

/-- C5 (confirmed): whenever the assignment returns `False`, the state —
roster, day entries and every shift — is exactly the state before the call. -/
theorem assign_failure_is_noop (s : State) (date : String) (i : Int) (eid : String)
    (s' : State) (h : assign_employee_to_shift s date i eid = .ok (s', false)) :
    s' = s := by
  unfold assign_employee_to_shift at h
  repeat' split at h
  all_goals simp_all

/-- C5 witness: the spec's own example — index 5 on a one-shift day — fails
and leaves the store unchanged. -/
theorem assign_failure_is_noop_witness :
    assign_employee_to_shift sampleState "2024-01-01" 5 "E1" = .ok (sampleState, false)
    ∧ sampleState = sampleState :=
  ⟨rfl, assign_failure_is_noop sampleState "2024-01-01" 5 "E1" sampleState rfl⟩

/-- C2 (code bug): `save_data` hands the schedule dict, which holds `Shift`
dataclass instances, to `json.dump`, so saving any store with at least one
shift raises `TypeError` — the claimed save/load round trip never gets a
document to load. -/
theorem save_data_shift_typeerror :
    save_data sampleState = .error .typeError :=
  rfl

/-- C4 (confirmed): a load from a missing file and a load of unparseable text
each return a distinct failure and leave the in-memory employees and schedule
exactly as they were. -/
theorem load_failure_preserves_state (s : State) (file : Option (Except Unit Json)) :
    (file = none → load_data file s = (s, .fileNotFound))
    ∧ (file = some (.error ()) → load_data file s = (s, .invalidJson))
    ∧ LoadResult.fileNotFound ≠ LoadResult.invalidJson := by
  refine ⟨?_, ?_, by decide⟩ <;> rintro rfl <;> rfl

/-- C4 witness: both failure kinds at the sample store. -/
theorem load_failure_preserves_state_witness :
    load_data none sampleState = (sampleState, .fileNotFound)
    ∧ load_data (some (.error ())) sampleState = (sampleState, .invalidJson) :=
  ⟨(load_failure_preserves_state sampleState none).1 rfl,
   (load_failure_preserves_state sampleState (some (.error ()))).2.1 rfl⟩

/-- C8 (confirmed): removal filters out every employee with the id (also
duplicates), keeps everyone else, a subsequent lookup returns `None`, and
removing an absent id changes nothing. -/
theorem roster_remove_all_matches (es : List Employee) (eid : String) :
    get_employee (remove_employee es eid) eid = none
    ∧ (∀ e ∈ remove_employee es eid, e.id ≠ eid)
    ∧ (∀ e ∈ es, e.id ≠ eid → e ∈ remove_employee es eid)
    ∧ ((∀ e ∈ es, e.id ≠ eid) → remove_employee es eid = es) := by
  refine ⟨?_, ?_, ?_, ?_⟩
  · rw [get_employee, List.find?_eq_none]
    intro e he
    rw [remove_employee, List.mem_filter] at he
    simpa using he.2
  · intro e he
    rw [remove_employee, List.mem_filter] at he
    simpa using he.2
  · intro e he hne
    rw [remove_employee, List.mem_filter]
    exact ⟨he, by simpa using hne⟩
  · intro hall
    rw [remove_employee, List.filter_eq_self]
    intro e he
    simpa using hall e he

/-- C8 witness: removing an id that is not in the roster is a no-op. -/
theorem roster_remove_all_matches_witness :
    remove_employee [empAnn] "E2" = [empAnn] :=
  (roster_remove_all_matches [empAnn] "E2").2.2.2 (by decide)

theorem foldl_append_singleton {α β : Type} (g : α → β) (l : List α) (acc : List β) :
    l.foldl (fun a x => a ++ [g x]) acc = acc ++ l.map g := by
  induction l generalizing acc with
  | nil => simp
  | cons x rest ih => simp [ih, List.append_assoc]

theorem foldl_append_flatMap {α β : Type} (h : α → List β) (l : List α) (acc : List β) :
    l.foldl (fun a x => a ++ h x) acc = acc ++ l.flatMap h := by
  induction l generalizing acc with
  | nil => simp
  | cons x rest ih => simp [ih, List.append_assoc]

/-- C7 (corrected): all exports iterate days in insertion order then shifts
in list order; the employee cell is the employee's name when the (truthy)
assigned id is in the roster and the bare id when it is not; an unassigned
shift renders as the empty string in the CSV (not the claimed `UNASSIGNED`
marker) and as `UNASSIGNED` in the HTML table and the printed text; the CSV
starts with the `Date, Day, Start Time, End Time, Position, Employee` header
row. -/
theorem export_resolution (s : State) :
    export_to_csv s
      = ["Date", "Day", "Start Time", "End Time", "Position", "Employee"]
        :: s.schedule.flatMap (fun p => p.2.shifts.map (fun sh =>
            [p.1, p.2.day, sh.start_time, sh.end_time, sh.position,
             csvEmployeeName s.employees sh.employee_id]))
    ∧ export_to_html_rows s
      = s.schedule.flatMap (fun p => p.2.shifts.map (fun sh =>
          ⟨if optStrTruthy sh.employee_id then "" else "unassigned",
           p.1, p.2.day, sh.start_time ++ " - " ++ sh.end_time, sh.position,
           displayEmployeeName s.employees sh.employee_id⟩))
    ∧ print_schedule_out s
      = "\n=== WORK SCHEDULE ===\n"
        :: s.schedule.flatMap (fun p =>
            [p.1 ++ " (" ++ p.2.day ++ ")", String.mk (List.replicate 50 '-')]
              ++ (if p.2.shifts.isEmpty then ["  No shifts scheduled"]
                  else p.2.shifts.map (shiftLine s.employees))
              ++ [""])
    ∧ (∀ eid emp, eid ≠ "" → get_employee s.employees eid = some emp →
        csvEmployeeName s.employees (some eid) = emp.name
        ∧ displayEmployeeName s.employees (some eid) = emp.name)
    ∧ (∀ eid, eid ≠ "" → get_employee s.employees eid = none →
        csvEmployeeName s.employees (some eid) = eid
        ∧ displayEmployeeName s.employees (some eid) = eid)
    ∧ csvEmployeeName s.employees none = ""
    ∧ displayEmployeeName s.employees none = "UNASSIGNED" := by
  refine ⟨?_, ?_, ?_, ?_, ?_, rfl, rfl⟩
  · simp only [export_to_csv, foldl_append_singleton, foldl_append_flatMap]
    rfl
  · simp only [export_to_html_rows, foldl_append_singleton, foldl_append_flatMap]
    rfl
  · simp only [print_schedule_out, foldl_append_singleton, List.nil_append,
      List.append_assoc, foldl_append_flatMap]
    rfl
  · intro eid emp hne hemp
    have : eid.isEmpty = false := by
      cases h : eid.isEmpty
      · rfl
      · exact absurd ((String.isEmpty_iff eid).mp h) hne
    constructor <;> simp [csvEmployeeName, displayEmployeeName, this, hemp]
  · intro eid hne hemp
    have : eid.isEmpty = false := by
      cases h : eid.isEmpty
      · rfl
      · exact absurd ((String.isEmpty_iff eid).mp h) hne
    constructor <;> simp [csvEmployeeName, displayEmployeeName, this, hemp]

/-- C7 witness: a truthy id present in the roster resolves to the employee
name in both cells. -/
theorem export_resolution_witness :
    csvEmployeeName sampleState.employees (some "E1") = "Ann"
    ∧ displayEmployeeName sampleState.employees (some "E1") = "Ann" :=
  (export_resolution sampleState).2.2.2.1 "E1" empAnn (by decide) rfl

/-- C7 counterexample: the CSV renders the unassigned sample shift with an
empty employee cell, not the claimed literal `UNASSIGNED`. -/
theorem csv_unassigned_empty_cell :
    export_to_csv sampleState
      = [["Date", "Day", "Start Time", "End Time", "Position", "Employee"],
         ["2024-01-01", "Monday", "09:00", "17:00", "Manager", ""]]
    ∧ ("" : String) ≠ "UNASSIGNED" :=
  ⟨rfl, by decide⟩

/-- C9 (confirmed, implicit): a parseable JSON object lacking the
`employees`/`schedule` keys loads successfully and installs empty structures
(so loading `{}` clears both), and the `False` returns happen exactly for the
missing-file and unparseable-text cases. -/
theorem load_tolerates_missing_keys (s : State) (kvs : List (String × Json)) :
    (List.lookup "employees" kvs = none → List.lookup "schedule" kvs = none →
      load_data (some (.ok (.jobj kvs))) s = (⟨[], []⟩, .ok))
    ∧ load_data (some (.ok (.jobj []))) s = (⟨[], []⟩, .ok)
    ∧ (∀ file : Option (Except Unit Json),
        ((load_data file s).2 = .fileNotFound ∨ (load_data file s).2 = .invalidJson)
          ↔ (file = none ∨ file = some (.error ()))) := by
  refine ⟨?_, rfl, ?_⟩
  · intro h1 h2
    simp only [load_data, jsonGetD, h1, h2]
    rfl
  · intro file
    rcases file with _ | f
    · simp [load_data]
    · rcases f with u | data
      · cases u
        simp [load_data]
      · rcases data with _ | b | n | str | xs | kvs2
        · simp [load_data]
        · simp [load_data]
        · simp [load_data]
        · simp [load_data]
        · simp [load_data]
        · rcases hE : empsFromJson (jsonGetD kvs2 "employees" (.jarr [])) with e | emps
          · simp [load_data, hE]
          · rcases hS : scheduleFromJson (jsonGetD kvs2 "schedule" (.jobj [])) with e | sched
            · simp [load_data, hE, hS]
            · simp [load_data, hE, hS]

/-- C9 witness: a document with only unrelated keys loads successfully and
clears the store. -/
theorem load_tolerates_missing_keys_witness :
    load_data (some (.ok (.jobj [("other", Json.null)]))) sampleState = (⟨[], []⟩, .ok) :=
  (load_tolerates_missing_keys sampleState [("other", Json.null)]).1 rfl rfl

theorem one_le_daysInMonth (y m : Nat) : 1 ≤ daysInMonth y m := by
  unfold daysInMonth
  split
  · split <;> omega
  · split <;> omega

theorem daysInMonth_le (y m : Nat) : daysInMonth y m ≤ 31 := by
  unfold daysInMonth
  split
  · split <;> omega
  · split <;> omega

theorem valid_nextDay : ∀ {d : Date}, d.valid → (nextDay d).valid := by
  rintro ⟨y, m, a⟩ ⟨hy, hm1, hm2, ha1, ha2⟩
  unfold nextDay
  dsimp only at *
  split
  · exact ⟨hy, hm1, hm2, (by omega : 1 ≤ a + 1), (by omega : a + 1 ≤ daysInMonth y m)⟩
  · split
    · exact ⟨hy, (by omega : 1 ≤ m + 1), (by omega : m + 1 ≤ 12), le_refl 1,
        one_le_daysInMonth y (m + 1)⟩
    · exact ⟨(by omega : 1000 ≤ y + 1), le_refl 1, (by omega : (1 : Nat) ≤ 12), le_refl 1,
        one_le_daysInMonth (y + 1) 1⟩

theorem toKey_lt_nextDay : ∀ {d : Date}, d.valid → toKey d < toKey (nextDay d) := by
  rintro ⟨y, m, a⟩ ⟨hy, hm1, hm2, ha1, ha2⟩
  have hle := daysInMonth_le y m
  unfold nextDay toKey
  dsimp only at *
  split
  · exact (by omega : y * 10000 + m * 100 + a < y * 10000 + m * 100 + (a + 1))
  · split
    · exact (by omega : y * 10000 + m * 100 + a < y * 10000 + (m + 1) * 100 + 1)
    · exact (by omega : y * 10000 + m * 100 + a < (y + 1) * 10000 + 1 * 100 + 1)

theorem year_le_nextDay (d : Date) : d.year ≤ (nextDay d).year := by
  obtain ⟨y, m, a⟩ := d
  unfold nextDay
  split
  · exact le_refl _
  · split
    · exact (le_refl y : y ≤ y)
    · exact (by omega : y ≤ y + 1)

theorem valid_addDays {d : Date} (h : d.valid) : ∀ n, (addDays d n).valid
  | 0 => h
  | n + 1 => valid_nextDay (valid_addDays h n)

theorem addDays_add (d : Date) (m n : Nat) :
    addDays d (m + n) = addDays (addDays d m) n := by
  induction n with
  | zero => rfl
  | succ k ih => exact congrArg nextDay ih

theorem toKey_lt_addDays {d : Date} (h : d.valid) (n : Nat) (hn : 0 < n) :
    toKey d < toKey (addDays d n) := by
  induction n with
  | zero => omega
  | succ k ih =>
    rcases Nat.eq_zero_or_pos k with rfl | hk
    · exact toKey_lt_nextDay h
    · exact lt_trans (ih hk) (toKey_lt_nextDay (valid_addDays h k))

theorem toKey_addDays_strict {d : Date} (h : d.valid) {i j : Nat} (hij : i < j) :
    toKey (addDays d i) < toKey (addDays d j) := by
  have hj : j = i + (j - i) := by omega
  rw [hj, addDays_add]
  exact toKey_lt_addDays (valid_addDays h i) (j - i) (by omega)

theorem year_addDays_mono (d : Date) {i j : Nat} (hij : i ≤ j) :
    (addDays d i).year ≤ (addDays d j).year := by
  have hj : j = i + (j - i) := by omega
  rw [hj, addDays_add]
  generalize addDays d i = e
  induction (j - i) with
  | zero => exact le_refl _
  | succ k ih => exact le_trans ih (year_le_nextDay _)

theorem digitChar_inj (a b : Nat) (ha : a < 10) (hb : b < 10)
    (h : Char.ofNat (48 + a) = Char.ofNat (48 + b)) : a = b :=
  (by decide : ∀ a < 10, ∀ b < 10, Char.ofNat (48 + a) = Char.ofNat (48 + b) → a = b)
    a ha b hb h

theorem pad2_inj {a b : Nat} (ha : a < 100) (hb : b < 100) (h : pad2 a = pad2 b) :
    a = b := by
  unfold pad2 at h
  injection h with h1 h2
  injection h2 with h2 _
  have d1 := digitChar_inj _ _ (by omega) (by omega) h1
  have d2 := digitChar_inj _ _ (by omega) (by omega) h2
  omega

theorem fmtDate_inj : ∀ {d1 d2 : Date}, d1.valid → d2.valid →
    d1.year ≤ 9999 → d2.year ≤ 9999 → fmtDate d1 = fmtDate d2 → d1 = d2 := by
  rintro ⟨y1, m1, a1⟩ ⟨y2, m2, a2⟩ ⟨-, -, hm1, -, ha1⟩ ⟨-, -, hm2, -, ha2⟩ hy1 hy2 h
  dsimp only at hm1 hm2 ha1 ha2 hy1 hy2
  have ha1' : a1 ≤ 31 := le_trans ha1 (daysInMonth_le _ _)
  have ha2' : a2 ≤ 31 := le_trans ha2 (daysInMonth_le _ _)
  have hl : pad2 (y1 / 100) ++ pad2 (y1 % 100) ++ '-' :: (pad2 m1 ++ '-' :: pad2 a1)
      = pad2 (y2 / 100) ++ pad2 (y2 % 100) ++ '-' :: (pad2 m2 ++ '-' :: pad2 a2) :=
    congrArg String.data h
  obtain ⟨hY, hRest⟩ := List.append_inj hl (by simp [pad2])
  obtain ⟨hYhi, hYlo⟩ := List.append_inj hY (by simp [pad2])
  injection hRest with _ hRest
  obtain ⟨hM, hTail⟩ := List.append_inj hRest (by simp [pad2])
  injection hTail with _ hA
  have ey1 := pad2_inj (by omega) (by omega) hYhi
  have ey2 := pad2_inj (by omega) (by omega) hYlo
  have em := pad2_inj (by omega) (by omega) hM
  have ea := pad2_inj (by omega) (by omega) hA
  have : y1 = y2 := by omega
  subst this; subst em; subst ea
  rfl

theorem fmtDate_addDays_ne {start : Date} (hv : start.valid)
    (hf : (addDays start 6).year ≤ 9999) {i j : Nat} (hij : i < j) (hj : j ≤ 6) :
    fmtDate (addDays start i) ≠ fmtDate (addDays start j) := by
  intro heq
  have hyi : (addDays start i).year ≤ 9999 :=
    le_trans (year_addDays_mono start (by omega)) hf
  have hyj : (addDays start j).year ≤ 9999 :=
    le_trans (year_addDays_mono start hj) hf
  have hdd := fmtDate_inj (valid_addDays hv i) (valid_addDays hv j) hyi hyj heq
  have hk := toKey_addDays_strict hv hij
  rw [hdd] at hk
  exact lt_irrefl _ hk

theorem dictInsert_of_not_mem {α : Type} {m : List (String × α)} {k : String}
    (h : k ∉ m.map Prod.fst) (v : α) : dictInsert m k v = m ++ [(k, v)] := by
  induction m with
  | nil => rfl
  | cons p rest ih =>
    obtain ⟨k', v'⟩ := p
    simp only [List.map_cons, List.mem_cons] at h
    push_neg at h
    rw [dictInsert, if_neg (fun hh => h.1 hh.symm), ih h.2]
    exact (List.cons_append _ _ _).symm

theorem buildWeekGo_ok (start : Date) (tmpl : List (String × List Shift)) :
    ∀ (l : List (Nat × String)),
      (∀ p ∈ l, (addDays start p.1).year ≤ 9999) →
      ∀ (acc : Schedule),
      (acc.map Prod.fst ++ l.map (fun p => fmtDate (addDays start p.1))).Nodup →
      buildWeekGo start tmpl l acc
        = .ok (acc ++ l.map (fun p => (fmtDate (addDays start p.1), ⟨p.2, dictGetD tmpl p.2 []⟩))) := by
  intro l
  induction l with
  | nil =>
    intro _ acc _
    simp [buildWeekGo]
  | cons p rest ih =>
    intro hyr acc hnd
    obtain ⟨i, day⟩ := p
    have hy : (addDays start i).year ≤ 9999 := hyr (i, day) (by simp)
    rw [buildWeekGo, if_pos hy]
    have hkey : fmtDate (addDays start i) ∉ acc.map Prod.fst := by
      intro hmem
      exact (List.nodup_append.mp hnd).2.2 hmem (by simp)
    rw [dictInsert_of_not_mem hkey]
    rw [ih (fun q hq => hyr q (by simp [hq])) _ (by simpa [List.append_assoc] using hnd)]
    simp [List.append_assoc]

theorem fmt_week_keys_nodup {start : Date} (hv : start.valid)
    (hf : (addDays start 6).year ≤ 9999) :
    (weekDaysEnum.map (fun p => fmtDate (addDays start p.1))).Nodup := by
  have key : ∀ i j : Nat, i < 7 → j < 7 → i ≠ j →
      fmtDate (addDays start i) ≠ fmtDate (addDays start j) := by
    intro i j hi hj hij
    rcases Nat.lt_or_ge i j with h | h
    · exact fmtDate_addDays_ne hv hf h (by omega)
    · exact (fmtDate_addDays_ne hv hf (by omega) (by omega)).symm
  have hr : ((List.range 7).map (fun i => fmtDate (addDays start i))).Nodup := by
    refine List.Nodup.map_on ?_ (List.nodup_range 7)
    intro x hx y hy hfe
    by_contra hxy
    exact key x y (List.mem_range.mp hx) (List.mem_range.mp hy) hxy hfe
  exact hr

theorem buildWeek_eq_weekList (start : Date) (tmpl : List (String × List Shift))
    (hv : start.valid) (hf : (addDays start 6).year ≤ 9999) :
    buildWeek start tmpl = .ok (weekList start tmpl) := by
  have hyr : ∀ p ∈ weekDaysEnum, (addDays start p.1).year ≤ 9999 := by
    intro p hp
    have h6 : p.1 ≤ 6 := by fin_cases hp <;> simp
    exact le_trans (year_addDays_mono start h6) hf
  exact buildWeekGo_ok start tmpl weekDaysEnum hyr [] (fmt_week_keys_nodup hv hf)

/-- C6 (corrected): for a well-formed start date whose whole 7-day span stays
within the supported calendar range (year at most 9999),
`create_weekly_schedule` replaces the schedule with, and returns, a mapping
of exactly 7 distinct-key entries: the `i`-th consecutive date carries the
fixed offset label Monday..Sunday (regardless of the start date's true
weekday) and the template's shift list for that label, or the empty list when
the label is absent. -/
theorem create_weekly_schedule_offset_labels (s : State) (start : Date)
    (tmpl : List (String × List Shift)) (hv : start.valid)
    (hf : (addDays start 6).year ≤ 9999) :
    create_weekly_schedule s start tmpl
      = .ok ({ s with schedule := weekList start tmpl }, weekList start tmpl)
    ∧ (weekList start tmpl).length = 7
    ∧ ((weekList start tmpl).map Prod.fst).Nodup := by
  refine ⟨?_, rfl, ?_⟩
  · unfold create_weekly_schedule
    rw [buildWeek_eq_weekList start tmpl hv hf]
  · exact fmt_week_keys_nodup hv hf

/-- C6 witness: the week created from 2024-01-01 with one Monday shift. -/
theorem create_weekly_schedule_offset_labels_witness :
    create_weekly_schedule sampleState startJan sampleTemplate
      = .ok ({ sampleState with schedule := weekList startJan sampleTemplate },
             weekList startJan sampleTemplate)
    ∧ (weekList startJan sampleTemplate).length = 7
    ∧ ((weekList startJan sampleTemplate).map Prod.fst).Nodup :=
  create_weekly_schedule_offset_labels sampleState startJan sampleTemplate
    (by decide) (by decide)

/-- C6 counterexample: 9999-12-30 is a well-formed start date, but the claim
fails there — `start + timedelta(days=2)` leaves the `datetime` range, so the
call raises `OverflowError` and produces no 7-entry mapping at all. -/
theorem create_weekly_schedule_overflow_cex :
    Date.valid ⟨9999, 12, 30⟩
    ∧ create_weekly_schedule sampleState ⟨9999, 12, 30⟩ [] = .error .overflowError
    ∧ ∀ st m, create_weekly_schedule sampleState ⟨9999, 12, 30⟩ [] ≠ .ok (st, m) := by
  refine ⟨by decide, rfl, ?_⟩
  intro st m h
  rw [show create_weekly_schedule sampleState ⟨9999, 12, 30⟩ [] = .error .overflowError
        from rfl] at h
  exact Except.noConfusion h

/-- C10 (confirmed, implicit): the created week installs the template's shift
lists as given — a template shift that already carries an assigned employee
id appears in the corresponding day with that assignment intact (the embedded
value model expresses the source's install-without-copy as equality of every
observable field). -/
theorem create_installs_template_shifts (s : State) (start : Date)
    (tmpl : List (String × List Shift)) (day : String) (sh : Shift) (eid : String)
    (hv : start.valid) (hf : (addDays start 6).year ≤ 9999)
    (hday : day ∈ weekDayNames) (hsh : sh ∈ dictGetD tmpl day [])
    (hpre : sh.employee_id = some eid) :
    ∃ st m, create_weekly_schedule s start tmpl = .ok (st, m) ∧ st.schedule = m
      ∧ ∃ date ent, (date, ent) ∈ m ∧ ent.day = day ∧ sh ∈ ent.shifts
      ∧ sh.employee_id = some eid := by
  have hb := buildWeek_eq_weekList start tmpl hv hf
  obtain ⟨p, hp, rfl⟩ :=
    List.mem_map.mp (show day ∈ weekDaysEnum.map Prod.snd from hday)
  refine ⟨{ s with schedule := weekList start tmpl }, weekList start tmpl, ?_, rfl,
    fmtDate (addDays start p.1), ⟨p.2, dictGetD tmpl p.2 []⟩, ?_, rfl, hsh, hpre⟩
  · unfold create_weekly_schedule
    rw [hb]
  · exact List.mem_map.mpr ⟨p, hp, rfl⟩

/-- C10 witness: a pre-assigned Tuesday template shift survives creation with
its assignment. -/
theorem create_installs_template_shifts_witness :
    ∃ st m, create_weekly_schedule sampleState startJan preAssignedTemplate = .ok (st, m)
      ∧ st.schedule = m
      ∧ ∃ date ent, (date, ent) ∈ m ∧ ent.day = "Tuesday" ∧ preAssignedShift ∈ ent.shifts
      ∧ preAssignedShift.employee_id = some "E9" :=
  create_installs_template_shifts sampleState startJan preAssignedTemplate "Tuesday"
    preAssignedShift "E9" (by decide) (by decide) (by decide) (by decide) rfl
